import Mathlib

/-!
Verification of the chart-directive parsing and data-cleaning pipeline of the
ARVIN repository (backend/Agent01/functions.py and the chat route of
backend/routes.py), as a shallow embedding in Lean.

Modelling conventions:
* A pandas DataFrame is a list of named columns; each column carries its
  dtype flag (`isNum`) and a list of cells.  `Cell.null` stands for NaN/None.
* Machine floats are modelled as exact rationals; `round(2)` is modelled as
  exact round-half-to-even at two decimals (numpy's rounding rule).
* Library calls are embedded by their documented semantics:
  `Series.quantile` uses linear interpolation on the sorted values,
  `Series.clip(lo, hi)` is `min hi (max lo x)`, `pandas.api.types.is_numeric_dtype`
  counts boolean dtypes as numeric, `dropna(subset=...)` drops rows with a
  null in any listed column.  Plot rendering calls themselves are modelled as
  total (they do not exit); the explicit `raise`/`return` statements of
  `make_chart` are modelled exactly.
* Python's `random` module is modelled by a deterministic generator with an
  explicit state; `random.seed(42)` resets the state to a fixed value, which
  is the only property the sampling claims rely on.
-/

namespace Arvin

/-! ## Character/list helpers: models of the string operations used by the code -/

/-- Does `needle` occur at the head of `hay`? (model of `str.startswith`) -/
def startsW : List Char → List Char → Bool
  | [], _ => true
  | nh :: nt, hay =>
    match hay with
    | [] => false
    | hh :: ht => nh = hh && startsW nt ht

/-- Does `needle` occur anywhere inside `hay`? (model of Python `needle in hay`) -/
def hasSub (needle : List Char) : List Char → Bool
  | [] => needle.isEmpty
  | c :: t => startsW needle (c :: t) || hasSub needle t

/-- Does `hay` end with `needle`? -/
def endsW (needle hay : List Char) : Bool :=
  startsW needle.reverse hay.reverse

/-- Lower-case a character list (model of `str.lower` for ASCII text). -/
def lcList (s : List Char) : List Char := s.map Char.toLower

/-- Python whitespace test restricted to the ASCII whitespace the code meets. -/
def isWsChar (c : Char) : Bool := c = ' ' || c = '\t' || c = '\n' || c = '\r'

/-- Model of Python `str.strip()`. -/
def pyStrip (s : List Char) : List Char :=
  ((s.dropWhile isWsChar).reverse.dropWhile isWsChar).reverse

/-- Numeric value of a list of ASCII digits. -/
def digitsVal (ds : List Char) : Nat := ds.foldl (fun a c => a * 10 + (c.toNat - 48)) 0

/-! ## The DataFrame model -/

/-- One cell of a DataFrame column.  `null` stands for NaN/None. -/
inductive Cell
  | null
  | num (q : ℚ)
  | str (s : String)
  deriving DecidableEq, Repr

/-- A named pandas column with its dtype flag (`isNum` = `is_numeric_dtype`). -/
structure Column where
  name : String
  isNum : Bool
  cells : List Cell
  deriving DecidableEq, Repr

/-- A DataFrame: ordered list of named columns. -/
abbrev DF := List Column

def cellNum : Cell → Option ℚ
  | Cell.num q => some q
  | _ => none

def Cell.isNull : Cell → Bool
  | Cell.null => true
  | _ => false

/-- First column with the given name (model of `df[c]` / `c in df.columns`). -/
def findCol : DF → String → Option Column
  | [], _ => none
  | col :: rest, c => if col.name = c then some col else findCol rest c

def hasCol (df : DF) (c : String) : Bool := (findCol df c).isSome

def colCells (df : DF) (c : String) : List Cell :=
  match findCol df c with
  | some col => col.cells
  | none => []

/-- `is_numeric_dtype(df[c])` for a present column, `false` when absent. -/
def isNumericCol (df : DF) (c : String) : Bool :=
  match findCol df c with
  | some col => col.isNum
  | none => false

/-- `len(df)`: number of rows (length of the first column). -/
def rowCount : DF → Nat
  | [] => 0
  | col :: _ => col.cells.length

/-- Keep the cells whose mask entry is `true` (row filtering). -/
def maskKeep (mask : List Bool) (cells : List Cell) : List Cell :=
  ((cells.zip mask).filter (fun p => p.2)).map (fun p => p.1)

/-- Apply a row mask to every column of the frame. -/
def applyMask (df : DF) (mask : List Bool) : DF :=
  df.map (fun col => { col with cells := maskKeep mask col.cells })

/-- Replace the cells of the first column named `c`. -/
def updateCol : DF → String → List Cell → DF
  | [], _, _ => []
  | col :: rest, c, cells =>
    if col.name = c then { col with cells := cells } :: rest
    else col :: updateCol rest c cells

/-- Rows where the named column is non-null. -/
def notNullMask (df : DF) (c : String) : List Bool :=
  (colCells df c).map (fun x => !x.isNull)

/-- Model of `df.dropna(subset=cols)`: drop every row that has a null in any
of the listed columns (the caller always passes columns present in `df`). -/
def dropnaSubset (df : DF) (cols : List String) : DF :=
  let mask := cols.foldl
    (fun m c => if hasCol df c then m.zipWith (· && ·) (notNullMask df c) else m)
    (List.replicate (rowCount df) true)
  applyMask df mask

/-! ## Percentiles, clipping, rounding -/

/-- Linear interpolation of a sorted value list at fractional position `pos`
(the interpolation rule of `Series.quantile`). -/
def interpAt (s : List ℚ) (pos : ℚ) : ℚ :=
  s.getD (Int.floor pos).toNat 0 +
    (pos - (((Int.floor pos).toNat : ℕ) : ℚ)) *
      (s.getD ((Int.floor pos).toNat + 1) (s.getD (Int.floor pos).toNat 0) -
        s.getD (Int.floor pos).toNat 0)

/-- Model of `Series.quantile(q)` (default linear interpolation, NaN-free input). -/
def pQuantile (xs : List ℚ) (q : ℚ) : ℚ :=
  match xs with
  | [] => 0
  | _ :: _ => interpAt (xs.insertionSort (· ≤ ·)) (q * ((xs.length : ℚ) - 1))

/-- Model of `Series.clip(lo, hi)` (numpy semantics: upper bound applied last). -/
def npClip (lo hi v : ℚ) : ℚ := min hi (max lo v)

/-- Round-half-to-even to an integer (numpy's rounding rule), exactly on ℚ. -/
def halfEven (y : ℚ) : ℤ :=
  if y - (Int.floor y : ℚ) < 1 / 2 then Int.floor y
  else if 1 / 2 < y - (Int.floor y : ℚ) then Int.floor y + 1
  else if Int.floor y % 2 = 0 then Int.floor y else Int.floor y + 1

/-- Model of `.round(2)`. -/
def round2 (q : ℚ) : ℚ := ((halfEven (100 * q) : ℤ) : ℚ) / 100

/-! ## The chart-data cleaner (`_clean_chart_data`) -/

/-- `clip(q1, q99).round(2)` applied to every numeric cell of a column, with
the percentiles computed once from the column's current values. -/
def cleanCells (cells : List Cell) : List Cell :=
  cells.map (fun cell =>
    match cellNum cell with
    | some q => Cell.num (round2 (npClip
        (pQuantile (cells.filterMap cellNum) (1 / 100))
        (pQuantile (cells.filterMap cellNum) (99 / 100)) q))
    | none => cell)

/-- The row mask of `df[df[c] >= 0]`: a NaN (or non-numeric) comparison is
`False`, so those rows are dropped too. -/
def nonnegMask (cells : List Cell) : List Bool :=
  cells.map (fun cell =>
    match cellNum cell with
    | some q => decide (0 ≤ q)
    | none => false)

/-- One pass of the cleaning loop body for target column `c`:
quantiles over the currently-remaining rows, clip, round, then drop the rows
where the (clipped, rounded) value is not `≥ 0`. -/
def cleanStep (df : DF) (c : String) : DF :=
  match findCol df c with
  | none => df
  | some col =>
    if col.isNum then
      applyMask (updateCol df c (cleanCells col.cells))
        (nonnegMask (cleanCells col.cells))
    else df

/-- `_clean_chart_data(df, cols)`: dropna on the target columns, then the
per-column clip/round/negative-filter loop, in the listed order. -/
def _clean_chart_data (df : DF) (cols : List String) : DF :=
  List.foldl cleanStep (dropnaSubset df cols) cols

/-! ## Column utilities (`_split_cols`, `_all_numeric`, `_best_numeric`) -/

/-- `_split_cols(df, cols)`: (categoricals, numerics), preserving order,
silently dropping names absent from the frame. -/
def _split_cols (df : DF) : List String → List String × List String
  | [] => ([], [])
  | c :: rest =>
    let p := _split_cols df rest
    match findCol df c with
    | none => p
    | some col => if col.isNum then (p.1, c :: p.2) else (c :: p.1, p.2)

/-- `_all_numeric(df)`: names of all numeric columns, in frame order. -/
def _all_numeric (df : DF) : List String :=
  (df.filter (fun col => col.isNum)).map (fun col => col.name)

/-- The word list of `_MONEY_RE` (case-insensitive alternation). -/
def moneyWords : List (List Char) :=
  (["amount", "cost", "price", "total", "value", "balance",
    "paid", "spend", "debit", "credit"]).map String.toList

/-- `_MONEY_RE.search(c)`: does the column name contain one of the money
words, case-insensitively? -/
def moneySearch (c : String) : Bool :=
  moneyWords.any (fun w => hasSub w (lcList c.toList))

/-- `Series.abs().sum()` of a numeric column (NaN entries are skipped). -/
def absSum (df : DF) (c : String) : ℚ :=
  (((colCells df c).filterMap cellNum).map (fun q => |q|)).sum

/-- Python `max(xs, key=f)`: first element achieving the maximum. -/
def pyMaxBy (f : String → ℚ) : List String → Option String
  | [] => none
  | x :: t => some (t.foldl (fun b y => if f b < f y then y else b) x)

/-- `_best_numeric(df)`: first money-named numeric column, else the numeric
column with the largest sum of absolute values; `none` without numerics. -/
def _best_numeric (df : DF) : Option String :=
  let nums := _all_numeric df
  match nums.find? (fun c => moneySearch c) with
  | some c => some c
  | none => pyMaxBy (absSum df) nums

/-! ## Chart creation (`make_chart`) -/

/-- Result of a `make_chart` call.
`chart pie?` is a successful base64 PNG (for a pie chart it carries the final
plotted series); `err` is the structured JSON
`{"action": "error", "message": "Not enough valid data to plot."}` returned as
a normal value; `exn msg` is a raised `ValueError`. -/
inductive ChartOut
  | chart (pie : Option (List (Cell × ℚ)))
  | err
  | exn (msg : String)
  deriving DecidableEq, Repr

def ChartOut.isExn : ChartOut → Bool
  | ChartOut.exn _ => true
  | _ => false

/-- `any(w in prompt.lower() for w in ("spend", "expense", "outflow"))`. -/
def promptHasSpend (prompt : String) : Bool :=
  let p := lcList prompt.toList
  hasSub ("spend".toList) p || hasSub ("expense".toList) p ||
    hasSub ("outflow".toList) p

/-- First-occurrence deduplication of a list of cells. -/
def dedupFirst (l : List Cell) : List Cell :=
  l.foldl (fun acc x => if x ∈ acc then acc else acc ++ [x]) []

/-- Stable insertion of a keyed count into a count-descending list. -/
def insertDesc (x : Cell × ℚ) : List (Cell × ℚ) → List (Cell × ℚ)
  | [] => [x]
  | y :: t => if y.2 < x.2 then x :: y :: t else y :: insertDesc x t

/-- Stable sort by count, descending (ties keep first-occurrence order). -/
def sortDesc : List (Cell × ℚ) → List (Cell × ℚ)
  | [] => []
  | x :: t => insertDesc x (sortDesc t)

/-- Model of `Series.value_counts()`: occurrence counts of the non-null
values, most frequent first (ties in first-occurrence order). -/
def value_counts (cells : List Cell) : List (Cell × ℚ) :=
  let present := cells.filter (fun x => !x.isNull)
  let keys := dedupFirst present
  sortDesc (keys.map (fun k => (k, (present.count k : ℚ))))

/-- Lexicographic order on character lists (for the sorted group keys). -/
def lexLt : List Char → List Char → Bool
  | [], ys => !ys.isEmpty
  | x :: xt, ys =>
    match ys with
    | [] => false
    | y :: yt => if x < y then true else if y < x then false else lexLt xt yt

def insertAsc (x : String) : List String → List String
  | [] => [x]
  | y :: t => if lexLt x.toList y.toList then x :: y :: t else y :: insertAsc x t

def sortAsc : List String → List String
  | [] => []
  | x :: t => insertAsc x (sortAsc t)

/-- First-occurrence deduplication of strings. -/
def dedupStr (l : List String) : List String :=
  l.foldl (fun acc x => if x ∈ acc then acc else acc ++ [x]) []

/-- Model of `df.groupby(catcol)[numcol].sum()`: for each distinct non-null
string key (ascending), the NaN-skipping sum of the paired numeric values. -/
def groupbySum (keyCells valCells : List Cell) : List (Cell × ℚ) :=
  let pairs := keyCells.zip valCells
  let keys := sortAsc (dedupStr (keyCells.filterMap (fun k =>
    match k with | Cell.str s => some s | _ => none)))
  keys.map (fun k =>
    (Cell.str k,
      ((pairs.filter (fun p => p.1 = Cell.str k)).filterMap
        (fun p => cellNum p.2)).sum))

/-- The sign-handling block of the pie branch: keep only negatives when the
prompt hints at spending; negate when all remaining values are negative, else
take absolute values when some are; finally drop zero slices. -/
def pieTransform (prompt : String) (series : List (Cell × ℚ)) :
    List (Cell × ℚ) :=
  let s1 := if promptHasSpend prompt then series.filter (fun p => p.2 < 0)
            else series
  let s2 :=
    if s1.all (fun p => p.2 < 0) then s1.map (fun p => (p.1, -p.2))
    else if s1.any (fun p => p.2 < 0) then s1.map (fun p => (p.1, |p.2|))
    else s1
  s2.filter (fun p => p.2 ≠ 0)

/-- Tail of the pie branch: after sign handling, fewer than 3 slices returns
the structured error (leaving the figure open); otherwise the pie is rendered
and the figure closed.  `opened` is the number of open figures at this point. -/
def pieRender (prompt : String) (series : List (Cell × ℚ)) (opened : Nat) :
    ChartOut × Nat :=
  let s := pieTransform prompt series
  if s.length < 3 then (ChartOut.err, opened)
  else (ChartOut.chart (some s), opened - 1)

/-- The `nums` list of the pie branch after the best-numeric fallback:
when only categoricals were requested, the best numeric column (if any) is
substituted. -/
def pieNums (dfc : DF) (cols : List String) : List String :=
  if ¬ (_split_cols dfc cols).1.isEmpty ∧ (_split_cols dfc cols).2.isEmpty then
    (match _best_numeric dfc with | some b => [b] | none => [])
  else (_split_cols dfc cols).2

/-- The pie branch of `make_chart` on the cleaned frame: build the series
(category-grouped sums, else value counts), then sign handling and rendering. -/
def pieBranch (dfc : DF) (cols : List String) (prompt : String)
    (opened : Nat) : ChartOut × Nat :=
  match (_split_cols dfc cols).1, pieNums dfc cols with
  | c0 :: _, n0 :: _ =>
    pieRender prompt (groupbySum (colCells dfc c0) (colCells dfc n0)) opened
  | c0 :: _, [] => pieRender prompt (value_counts (colCells dfc c0)) opened
  | [], n0 :: _ => pieRender prompt (value_counts (colCells dfc n0)) opened
  | [], [] => (ChartOut.err, opened)

/-- `make_chart(df, kind, columns, prompt)`.  The second component tracks the
number of open matplotlib figures (`plt.subplots` opens one, `plt.close(fig)`
closes it), so resource behaviour of every exit path is visible. -/
def make_chart (figs : Nat) (df : DF) (kind : String) (columns : List String)
    (prompt : String) : ChartOut × Nat :=
  let cols := columns.filter (fun c => hasCol df c)
  if cols.isEmpty then (ChartOut.exn "No valid columns", figs)
  else
    let dfc := _clean_chart_data df cols
    if rowCount dfc < 3 then (ChartOut.err, figs)
    else
      let opened := figs + 1
      if kind = "bar" ∨ kind = "line" then
        (ChartOut.chart none, opened - 1)
      else if kind = "pie" then pieBranch dfc cols prompt opened
      else (ChartOut.exn "Unsupported chart type", opened)

/-! ## Deterministic sampler (`sample_df`) -/

/-- State of the global pseudo-random generator of Python's `random` module.
Only two facts about the library are used by the claims: `random.seed(42)`
replaces the state by a fixed value, and `random.sample` is a deterministic
function of the current state. The generator itself is modelled by an LCG. -/
structure RngState where
  stateVal : Nat
  deriving DecidableEq, Repr

/-- `random.seed(n)`. -/
def rngSeed (n : Nat) : RngState := ⟨n⟩

def lcgNext (g : RngState) : Nat × RngState :=
  let x := (g.stateVal * 6364136223846793005 + 1442695040888963407) % (2 ^ 64)
  (x, ⟨x⟩)

/-- Draw `k` indices without replacement from `pool`. -/
def drawIdx : Nat → RngState → List Nat → List Nat × RngState
  | 0, g, _ => ([], g)
  | k + 1, g, pool =>
    if pool.isEmpty then ([], g)
    else
      let p := lcgNext g
      let r := p.1 % pool.length
      let rest := drawIdx k p.2 (pool.eraseIdx r)
      (pool.getD r 0 :: rest.1, rest.2)

/-- Model of `random.sample(range(n), k)` on the current generator state. -/
def randomSample (g : RngState) (n k : Nat) : List Nat × RngState :=
  drawIdx k g (List.range n)

/-- `df.iloc[idx]`. -/
def selectRows (df : DF) (idx : List Nat) : DF :=
  df.map (fun col => { col with cells := idx.map (fun i => col.cells.getD i Cell.null) })

/-- `sample_df(df)` with the configured bounds passed explicitly
(`settings.SAMPLE_MIN_ROWS` / `settings.SAMPLE_MAX_ROWS`).  The generator
state is threaded explicitly; the function seeds it to 42 before drawing. -/
def sample_df (g : RngState) (minRows maxRows : Nat) (df : DF) : DF × RngState :=
  let n := max minRows (min maxRows (rowCount df))
  if rowCount df ≤ n then (df, g)
  else
    let d := randomSample (rngSeed 42) (rowCount df) n
    (selectRows df d.1, d.2)

/-! ## Column coercion (`coerce_numeric`) -/

/-- A single pandas column as seen by `coerce_numeric`, tagged by dtype.
`obj` is an object (text) column whose entries are strings or nulls. -/
inductive PyCol
  | numeric (vals : List (Option ℚ))
  | datetime (vals : List Int)
  | boolean (vals : List Bool)
  | obj (vals : List (Option String))
  deriving DecidableEq, Repr

/-- `pandas.api.types.is_numeric_dtype`: true for numeric dtypes AND for
boolean dtypes (pandas explicitly includes `np.bool_`). -/
def isNumericDtype : PyCol → Bool
  | PyCol.numeric _ => true
  | PyCol.boolean _ => true
  | _ => false

def isDatetimeDtype : PyCol → Bool
  | PyCol.datetime _ => true
  | _ => false

def isBoolDtype : PyCol → Bool
  | PyCol.boolean _ => true
  | _ => false

/-- `_CURRENCY_RE` removal (keep digits, dot, comma, minus) followed by
`.str.replace(",", "")`. -/
def stripCurrency (s : List Char) : List Char :=
  (s.filter (fun c => c.isDigit || c = '.' || c = ',' || c = '-')).filter
    (fun c => c ≠ ',')

/-- Split a character list at the dots. -/
def splitOnDot : List Char → List (List Char)
  | [] => [[]]
  | c :: t =>
    let r := splitOnDot t
    if c = '.' then [] :: r
    else match r with
      | h :: t2 => (c :: h) :: t2
      | [] => [[c]]

/-- Model of `pd.to_numeric(s, errors="coerce")` on a currency-stripped
string: Python float syntax `[-]digits[.digits]` with at least one digit
(the stripped alphabet leaves only digits, dots and minus signs). -/
def parseFloat (s : List Char) : Option ℚ :=
  let np := match s with
    | '-' :: t => (true, t)
    | _ => (false, s)
  if np.2.any (fun c => c = '-') then none
  else
    let fin := fun (m : ℚ) => some (if np.1 then -m else m)
    match splitOnDot np.2 with
    | [ip] => if ip ≠ [] ∧ ip.all Char.isDigit then fin (digitsVal ip) else none
    | [ip, fp] =>
      if (ip ++ fp) ≠ [] ∧ (ip ++ fp).all Char.isDigit then
        fin ((digitsVal ip : ℚ) + (digitsVal fp : ℚ) / (10 ^ fp.length))
      else none
    | _ => none

/-- Currency-strip and parse one object-column entry.  A null entry is
stringified by pandas to "nan"/"None", which strips to the empty string and
fails to parse. -/
def coerceCell : Option String → Option ℚ
  | none => none
  | some s => parseFloat (stripCurrency s.toList)

/-- `coerce_numeric(col)`.  Numeric (which includes boolean) and datetime
dtypes return unchanged — the explicit `is_bool_dtype` branch is dead code
because `is_numeric_dtype` already caught booleans.  An object column is
converted when `pd.to_numeric` succeeds on at least 10% of ALL entries
(`nums.notna().mean() >= 0.10`; an empty mean is NaN, hence no conversion). -/
def coerce_numeric (col : PyCol) : PyCol :=
  if isNumericDtype col then col
  else if isDatetimeDtype col then col
  else if isBoolDtype col then
    (match col with
     | PyCol.boolean bs => PyCol.numeric (bs.map (fun b => some (if b then 1 else 0)))
     | _ => col)
  else match col with
    | PyCol.obj vs =>
      let nums := vs.map coerceCell
      if 0 < vs.length ∧ 10 * (nums.filter Option.isSome).length ≥ vs.length then
        PyCol.numeric nums
      else col
    | _ => col

/-! ## The directive extractor (the chart-handling block of `routes.chat`) -/

/-- A JSON value as produced by `json.loads` (numbers as exact rationals;
exponent notation and unicode escapes are outside the modelled subset and
make the parse fail, i.e. fall through to the plain-chat path). -/
inductive JVal
  | jnull
  | jbool (b : Bool)
  | jnum (q : ℚ)
  | jstr (s : List Char)
  | jarr (xs : List JVal)
  | jobj (fs : List (List Char × JVal))

def skipWs (cs : List Char) : List Char := cs.dropWhile isWsChar

def escChar (e : Char) : Option Char :=
  if e = '"' ∨ e = '\\' ∨ e = '/' then some e
  else if e = 'n' then some '\n'
  else if e = 't' then some '\t'
  else if e = 'r' then some '\r'
  else none

/-- Parse the body of a JSON string (the opening quote already consumed). -/
def parseStrBody : List Char → Option (List Char × List Char)
  | [] => none
  | '"' :: rest => some ([], rest)
  | '\\' :: e :: rest =>
    match escChar e with
    | none => none
    | some c => (parseStrBody rest).map (fun p => (c :: p.1, p.2))
  | c :: rest => (parseStrBody rest).map (fun p => (c :: p.1, p.2))

/-- Parse a JSON number. -/
def parseJNum (cs : List Char) : Option (JVal × List Char) :=
  let np := match cs with
    | '-' :: t => (true, t)
    | _ => (false, cs)
  let ds := np.2.takeWhile Char.isDigit
  let r2 := np.2.drop ds.length
  if ds.isEmpty then none
  else
    match r2 with
    | '.' :: r3 =>
      let fs := r3.takeWhile Char.isDigit
      if fs.isEmpty then none
      else
        let q : ℚ := (digitsVal ds : ℚ) + (digitsVal fs : ℚ) / 10 ^ fs.length
        some (JVal.jnum (if np.1 then -q else q), r3.drop fs.length)
    | _ =>
      some (JVal.jnum (if np.1 then -(digitsVal ds : ℚ) else (digitsVal ds : ℚ)), r2)

mutual

def parseVal : Nat → List Char → Option (JVal × List Char)
  | 0, _ => none
  | fuel + 1, cs =>
    match skipWs cs with
    | '{' :: rest => parseObjBody fuel rest
    | '[' :: rest => parseArrBody fuel rest
    | '"' :: rest => (parseStrBody rest).map (fun p => (JVal.jstr p.1, p.2))
    | rest =>
      if startsW ("true".toList) rest then some (JVal.jbool true, rest.drop 4)
      else if startsW ("false".toList) rest then some (JVal.jbool false, rest.drop 5)
      else if startsW ("null".toList) rest then some (JVal.jnull, rest.drop 4)
      else
        match rest with
        | c :: r2 => if c = '-' || c.isDigit then parseJNum (c :: r2) else none
        | [] => none

def parseObjBody : Nat → List Char → Option (JVal × List Char)
  | 0, _ => none
  | fuel + 1, cs =>
    match skipWs cs with
    | '}' :: rest => some (JVal.jobj [], rest)
    | rest => (parseMembers fuel rest).map (fun p => (JVal.jobj p.1, p.2))

def parseMembers : Nat → List Char → Option (List (List Char × JVal) × List Char)
  | 0, _ => none
  | fuel + 1, cs =>
    match skipWs cs with
    | '"' :: rest =>
      match parseStrBody rest with
      | none => none
      | some kv =>
        match skipWs kv.2 with
        | ':' :: rest3 =>
          match parseVal fuel rest3 with
          | none => none
          | some vv =>
            match skipWs vv.2 with
            | ',' :: rest5 =>
              match parseMembers fuel rest5 with
              | none => none
              | some ms => some ((kv.1, vv.1) :: ms.1, ms.2)
            | '}' :: rest5 => some ([(kv.1, vv.1)], rest5)
            | _ => none
        | _ => none
    | _ => none

def parseArrBody : Nat → List Char → Option (JVal × List Char)
  | 0, _ => none
  | fuel + 1, cs =>
    match skipWs cs with
    | ']' :: rest => some (JVal.jarr [], rest)
    | rest => (parseItems fuel rest).map (fun p => (JVal.jarr p.1, p.2))

def parseItems : Nat → List Char → Option (List JVal × List Char)
  | 0, _ => none
  | fuel + 1, cs =>
    match parseVal fuel cs with
    | none => none
    | some vv =>
      match skipWs vv.2 with
      | ',' :: rest2 =>
        match parseItems fuel rest2 with
        | none => none
        | some ms => some (vv.1 :: ms.1, ms.2)
      | ']' :: rest2 => some ([vv.1], rest2)
      | _ => none

end

/-- `json.loads` on a span: the whole span must be one JSON value (trailing
whitespace allowed). -/
def jsonParse (cs : List Char) : Option JVal :=
  match parseVal (cs.length + 1) cs with
  | some vv => if skipWs vv.2 = [] then some vv.1 else none
  | none => none

/-- Dictionary field lookup; `json.loads` keeps the LAST duplicate key. -/
def lookupLast (fs : List (List Char × JVal)) (k : List Char) : Option JVal :=
  fs.foldl (fun acc p => if p.1 = k then some p.2 else acc) none

/-- `spec.get(k)` on a parsed object. -/
def jfield (v : JVal) (k : String) : Option JVal :=
  match v with
  | JVal.jobj fs => lookupLast fs k.toList
  | _ => none

/-- Drop characters up to and including the first newline, if any. -/
def dropThroughNl : List Char → Option (List Char)
  | [] => none
  | c :: t => if c = '\n' then some t else dropThroughNl t

/-- The fence-stripping of the chat route:
`if blob.startswith("` ``` `"): blob = re.sub(r"^` ``` `.*?\n|` ``` `$", "", blob, flags=DOTALL)`.
The first alternative removes the leading fence through its first newline;
the second removes a trailing triple-backtick at the end of the string. -/
def fenceStrip (b : List Char) : List Char :=
  if startsW ("```".toList) b then
    let b1 := match dropThroughNl (b.drop 3) with
      | some t => t
      | none => b
    if endsW ("```".toList) b1 then b1.take (b1.length - 3) else b1
  else b

/-- `re.search(r"(\{.*\})", blob, flags=DOTALL)`: greedy span from the first
opening brace to the last closing brace, when the latter comes after. -/
def braceSpan (b : List Char) : Option (List Char) :=
  match b.findIdx? (fun c => c = '{'), b.reverse.findIdx? (fun c => c = '}') with
  | some i, some jr =>
    let j := b.length - 1 - jr
    if i < j then some ((b.drop i).take (j - i + 1)) else none
  | _, _ => none

/-- The directive-extraction logic of `routes.chat`: strip, conditionally
de-fence, find the greedy brace span, `json.loads` it, and keep the parse
only when its `action` field is the string `"plot"`.  Every failure
(no span, parse error, wrong action) yields `none`: the plain-chat path. -/
def extractDirective (text : List Char) : Option JVal :=
  match (braceSpan (fenceStrip (pyStrip text))).bind jsonParse with
  | none => none
  | some v =>
    match jfield v "action" with
    | some (JVal.jstr s) => if s = "plot".toList then some v else none
    | _ => none

/-! ## Spec-side definitions (worded from the specification, for comparison) -/

/-- The six money words the spec's best-numeric rule names. -/
def moneyWordsSpec : List (List Char) :=
  (["amount", "total", "cost", "value", "balance", "price"]).map String.toList

/-- Best-numeric as worded by the spec, parameterized by the word list:
first numeric column whose name case-insensitively contains one of the
words; if none match, the numeric column with the largest sum of absolute
values; `none` when no numeric column exists. -/
def bestNumericSpec (words : List (List Char)) (df : DF) : Option String :=
  let nums := _all_numeric df
  if nums.isEmpty then none
  else
    match nums.find? (fun c => words.any (fun w => hasSub w (lcList c.toList))) with
    | some c => some c
    | none => pyMaxBy (absSum df) nums

/-- Coercion as worded by the claim: boolean becomes 0/1 integers, and a text
column is converted exactly when at least 10% of its NON-NULL values parse. -/
def coerceNumericClaim (col : PyCol) : PyCol :=
  match col with
  | PyCol.numeric _ => col
  | PyCol.datetime _ => col
  | PyCol.boolean bs => PyCol.numeric (bs.map (fun b => some (if b then 1 else 0)))
  | PyCol.obj vs =>
    let nums := vs.map coerceCell
    let nonNull := (vs.filter Option.isSome).length
    if 10 * (nums.filter Option.isSome).length ≥ nonNull ∧ 0 < nonNull then
      PyCol.numeric nums
    else col

/-- Coercion as amended: same as the claim except that booleans stay boolean
(pandas counts them as numeric already) and the 10% threshold is taken over
ALL entries of the column, nulls counting as non-parsing. -/
def coerceNumericAmended (col : PyCol) : PyCol :=
  match col with
  | PyCol.numeric _ => col
  | PyCol.datetime _ => col
  | PyCol.boolean _ => col
  | PyCol.obj vs =>
    let nums := vs.map coerceCell
    if 0 < vs.length ∧ 10 * (nums.filter Option.isSome).length ≥ vs.length then
      PyCol.numeric nums
    else col

/-- Clamp to the nearest bound, as the spec words it. -/
def specClamp (lo hi v : ℚ) : ℚ := if v < lo then lo else if hi < v then hi else v

/-- Clamp-to-nearest-bound and round, as the spec words it, with both
percentiles computed once from the column's current values. -/
def specCleanCells (cells : List Cell) : List Cell :=
  cells.map (fun cell =>
    match cellNum cell with
    | some q => Cell.num (round2 (specClamp
        (pQuantile (cells.filterMap cellNum) (1 / 100))
        (pQuantile (cells.filterMap cellNum) (99 / 100)) q))
    | none => cell)

/-- One cleaning pass as the spec words it: compute both percentiles once
over the currently-remaining rows, clamp values outside the range to the
nearest bound, round to 2 decimals, and only afterwards drop the rows whose
value in this column is negative. -/
def cleanStepSpec (df : DF) (c : String) : DF :=
  match findCol df c with
  | none => df
  | some col =>
    if col.isNum then
      applyMask (updateCol df c (specCleanCells col.cells))
        (nonnegMask (specCleanCells col.cells))
    else df

/-- The cleaner as the spec words it. -/
def cleanChartDataSpec (df : DF) (cols : List String) : DF :=
  List.foldl cleanStepSpec (dropnaSubset df cols) cols

/-- Pie sign handling as the spec words it: hint filter, then negate when all
remaining values are negative, absolute values when some but not all are,
otherwise unchanged; finally zero slices are dropped. -/
def pieTransformSpec (prompt : String) (series : List (Cell × ℚ)) :
    List (Cell × ℚ) :=
  let s1 := if promptHasSpend prompt then series.filter (fun p => p.2 < 0)
            else series
  let s2 :=
    if s1.all (fun p => p.2 < 0) then s1.map (fun p => (p.1, -p.2))
    else if s1.any (fun p => p.2 < 0) ∧ ¬ s1.all (fun p => p.2 < 0) then
      s1.map (fun p => (p.1, |p.2|))
    else s1
  s2.filter (fun p => p.2 ≠ 0)

/-! ## Fixed inputs used by the concrete parts of the claims -/

/-- Numeric values of a column in a frame. -/
def numVals (df : DF) (c : String) : List ℚ := (colCells df c).filterMap cellNum

/-- The frame right before target column number `|l1|` is processed:
dropna followed by the passes for the columns `l1` preceding it. -/
def preClean (df : DF) (cols l1 : List String) : DF :=
  List.foldl cleanStep (dropnaSubset df cols) l1

/-- One numeric column with a single row (cleans to fewer than 3 rows). -/
def df1 : DF := [⟨"a", true, [Cell.num 1]⟩]

/-- One numeric column `[0, 0.4]`: percentiles 0.004 / 0.396, but rounding
produces the out-of-range values 0 and 0.40. -/
def df7 : DF := [⟨"a", true, [Cell.num 0, Cell.num (2 / 5)]⟩]

/-- One numeric column `[-1, 100, 200]`: the 1st percentile is 1.02, so the
negative value is clamped up and survives the negative-row filter. -/
def df5 : DF := [⟨"a", true, [Cell.num (-1), Cell.num 100, Cell.num 200]⟩]

/-- One numeric column `[1, 2, 3]` (cleans to 3 rows unchanged in count). -/
def df9 : DF := [⟨"a", true, [Cell.num 1, Cell.num 2, Cell.num 3]⟩]

/-- A money-named numeric column with 5 rows, for the pie/spend claims. -/
def dfW : DF :=
  [⟨"amount", true, [Cell.num 1, Cell.num 2, Cell.num 3, Cell.num 4, Cell.num 5]⟩]

/-- Numeric columns named "paid" and "other": "paid" is matched by the
code's money regex but by none of the spec's six words. -/
def df3 : DF := [⟨"paid", true, [Cell.num 1]⟩, ⟨"other", true, [Cell.num 100]⟩]

/-- The spec's best-numeric tie-break example. -/
def dfQ : DF :=
  [⟨"quantity", true, [Cell.num 1, Cell.num 2, Cell.num 3]⟩,
   ⟨"amount", true, [Cell.num (-100), Cell.num (-200), Cell.num 5]⟩]

/-- Object column: 1 parseable entry, 10 nulls, 9 junk entries — 10% of the
non-null values parse but only 5% of all entries do. -/
def ex4 : PyCol :=
  PyCol.obj ([some "5"] ++ List.replicate 10 none ++ List.replicate 9 (some "x"))

/-- A boolean column. -/
def exB : PyCol := PyCol.boolean [true]

/-- Object column where exactly 10% of the entries parse. -/
def ex10 : PyCol := PyCol.obj (some "1" :: List.replicate 9 (some "a"))

/-- Object column where exactly 9% of the entries parse. -/
def ex100 : PyCol :=
  PyCol.obj (List.replicate 9 (some "1") ++ List.replicate 91 (some "a"))

/-- The spec's directive round-trip example text. -/
def exChatText : List Char :=
  ("Here you go:\n```\n\x7b\"action\":\"plot\",\"kind\":\"pie\",\"columns\":[\"Category\",\"Amount\"]\x7d\n```").toList

/-- The spec's pie sign-handling example series (all negative). -/
def exS1 : List (Cell × ℚ) :=
  [(Cell.str "a", -50), (Cell.str "b", -30), (Cell.str "c", -20)]

/-- The spec's pie sign-handling example series (mixed signs). -/
def exS2 : List (Cell × ℚ) :=
  [(Cell.str "a", -50), (Cell.str "b", 30), (Cell.str "c", -20)]

/-! ## Basic lemmas -/

theorem pieRender_not_exn (prompt : String) (series : List (Cell × ℚ))
    (opened : Nat) : ((pieRender prompt series opened).1).isExn = false := by
  unfold pieRender
  by_cases h : (pieTransform prompt series).length < 3 <;>
    simp [h, ChartOut.isExn]

theorem pieBranch_not_exn (dfc : DF) (cols : List String) (prompt : String)
    (opened : Nat) : ((pieBranch dfc cols prompt opened).1).isExn = false := by
  unfold pieBranch
  rcases hc : (_split_cols dfc cols).1 with _ | ⟨c0, cr⟩ <;>
    rcases hn : pieNums dfc cols with _ | ⟨n0, nr⟩
  · rfl
  · exact pieRender_not_exn _ _ _
  · exact pieRender_not_exn _ _ _
  · exact pieRender_not_exn _ _ _

/-! ## C8: sampler determinism -/

/-- C8: `sample_df` is deterministic — with the same table and the same
configured bounds, the selected rows are identical whatever the state of the
random generator before each call, because the generator is re-seeded with
the fixed seed 42 before sampling. -/
theorem sample_df_deterministic (g1 g2 : RngState) (mn mx : Nat) (df : DF) :
    (sample_df g1 mn mx df).1 = (sample_df g2 mn mx df).1 := by
  unfold sample_df
  by_cases h : rowCount df ≤ max mn (min mx (rowCount df)) <;> simp [h]

/-! ## C9: the drawing context is NOT closed on every exit path -/

unseal Rat.add Rat.mul Rat.inv Rat.sub Rat.ofScientific in
/-- C9 (failing evaluation): `make_chart` allocates the figure before the
chart-kind dispatch, and both the unsupported-kind raise and the pie branch's
insufficient-data return leave it open (one more open figure than before the
call), while a successful bar chart does close it.  This contradicts the
spec's requirement that every exit path release the context. -/
theorem make_chart_leaks_figure_on_error_paths :
    make_chart 0 df9 "scatter" ["a"] "" = (ChartOut.exn "Unsupported chart type", 1) ∧
    make_chart 0 dfW "pie" ["amount"] "my spending" = (ChartOut.err, 1) ∧
    (make_chart 0 df9 "bar" ["a"] "").2 = 0 := by
  decide

/-! ## C6: pie sign handling -/

unseal Rat.add Rat.mul Rat.inv Rat.sub Rat.ofScientific in
/-- C6: the pie sign handling behaves exactly as the spec words it (spend
hint keeps only negatives; all-negative series are negated; mixed-sign series
take absolute values; zero slices are dropped; fewer than 3 remaining slices
yield the insufficient-data error), and the two concrete examples hold:
`[-50,-30,-20]` with a spending hint gives three positive slices summing to
100, and `[-50,30,-20]` with no hint gives `[50,30,20]`. -/
theorem pie_sign_handling :
    (∀ (prompt : String) (series : List (Cell × ℚ)),
      pieTransform prompt series = pieTransformSpec prompt series) ∧
    (∀ (prompt : String) (series : List (Cell × ℚ)) (opened : Nat),
      (pieRender prompt series opened).1 = ChartOut.err ↔
        (pieTransform prompt series).length < 3) ∧
    (pieTransform "show my spending" exS1 =
      [(Cell.str "a", 50), (Cell.str "b", 30), (Cell.str "c", 20)] ∧
     ((pieTransform "show my spending" exS1).map (fun p => p.2)).sum = 100 ∧
     (pieTransform "show my spending" exS1).all (fun p => 0 < p.2) = true) ∧
    pieTransform "" exS2 =
      [(Cell.str "a", 50), (Cell.str "b", 30), (Cell.str "c", 20)] := by
  refine ⟨?_, ?_, by decide, by decide⟩
  · intro prompt series
    unfold pieTransform pieTransformSpec
    by_cases h1 : (if promptHasSpend prompt then series.filter (fun p => p.2 < 0)
        else series).all (fun p => p.2 < 0) <;>
      by_cases h2 : (if promptHasSpend prompt then series.filter (fun p => p.2 < 0)
        else series).any (fun p => p.2 < 0) <;>
      simp [h1, h2]
  · intro prompt series opened
    unfold pieRender
    by_cases h : (pieTransform prompt series).length < 3 <;> simp [h]

/-! ## C2: directive extraction -/

/-- C2: extraction succeeds with value `v` exactly when the greedy brace span
of the (stripped, conditionally de-fenced) text parses as JSON to `v` and its
`action` field is the string "plot"; in every other situation (no span, parse
failure, wrong action) the message is plain chat (`none`).  The spec's
round-trip example extracts `kind="pie"` and `columns=["Category","Amount"]`. -/
theorem chat_directive_extraction :
    (∀ (t : List Char) (v : JVal),
      extractDirective t = some v ↔
        ((braceSpan (fenceStrip (pyStrip t))).bind jsonParse = some v ∧
          jfield v "action" = some (JVal.jstr ("plot".toList)))) ∧
    ((extractDirective exChatText).bind (fun v => jfield v "kind") =
      some (JVal.jstr ("pie".toList))) ∧
    ((extractDirective exChatText).bind (fun v => jfield v "columns") =
      some (JVal.jarr [JVal.jstr ("Category".toList), JVal.jstr ("Amount".toList)])) := by
  refine ⟨?_, by rfl, by rfl⟩
  intro t v
  unfold extractDirective
  cases h : (braceSpan (fenceStrip (pyStrip t))).bind jsonParse with
  | none => simp
  | some w =>
    cases hw : jfield w "action" with
    | none =>
      simp only [hw]
      constructor
      · intro h2; cases h2
      · rintro ⟨h1, h2⟩
        injection h1 with h1
        subst h1
        rw [hw] at h2
        cases h2
    | some a =>
      cases a with
      | jstr s =>
        by_cases hs : s = "plot".toList
        · subst hs
          simp only [hw, if_pos rfl]
          constructor
          · intro h2
            injection h2 with h2
            subst h2
            exact ⟨rfl, hw⟩
          · rintro ⟨h1, _⟩
            injection h1 with h1
            subst h1
            rfl
        · simp only [hw, if_neg hs]
          constructor
          · intro h2; cases h2
          · rintro ⟨h1, h2⟩
            injection h1 with h1
            subst h1
            rw [hw] at h2
            injection h2 with h3
            injection h3 with h4
            exact (hs h4).elim
      | jnull =>
        simp only [hw]
        constructor
        · intro h2; cases h2
        · rintro ⟨h1, h2⟩
          injection h1 with h1
          subst h1
          rw [hw] at h2
          simp at h2
      | jbool b =>
        simp only [hw]
        constructor
        · intro h2; cases h2
        · rintro ⟨h1, h2⟩
          injection h1 with h1
          subst h1
          rw [hw] at h2
          simp at h2
      | jnum q =>
        simp only [hw]
        constructor
        · intro h2; cases h2
        · rintro ⟨h1, h2⟩
          injection h1 with h1
          subst h1
          rw [hw] at h2
          simp at h2
      | jarr xs =>
        simp only [hw]
        constructor
        · intro h2; cases h2
        · rintro ⟨h1, h2⟩
          injection h1 with h1
          subst h1
          rw [hw] at h2
          simp at h2
      | jobj fs =>
        simp only [hw]
        constructor
        · intro h2; cases h2
        · rintro ⟨h1, h2⟩
          injection h1 with h1
          subst h1
          rw [hw] at h2
          simp at h2

/-! ## C3: best-numeric column choice -/

unseal Rat.add Rat.mul Rat.inv Rat.sub Rat.ofScientific in
/-- C3 (counterexample): the code's money regex contains more words than the
spec's six.  On numeric columns "paid" (sum 1) and "other" (sum 100) the code
returns "paid" (regex match) while the claim's six-word rule would return
"other" (largest absolute sum). -/
theorem best_numeric_money_words_counterexample :
    _best_numeric df3 = some "paid" ∧
    bestNumericSpec moneyWordsSpec df3 = some "other" ∧
    ("paid" : String) ≠ "other" := by
  decide

unseal Rat.add Rat.mul Rat.inv Rat.sub Rat.ofScientific in
/-- C3 (amended): `_best_numeric` returns `none` iff there is no numeric
column; otherwise it returns the first numeric column whose name
case-insensitively contains one of the TEN words
amount/cost/price/total/value/balance/paid/spend/debit/credit, and if none
matches, the numeric column with the largest sum of absolute values; the
spec's tie-break example yields "amount". -/
theorem best_numeric_ten_words :
    (∀ df : DF, (_best_numeric df = none ↔ _all_numeric df = [])) ∧
    (∀ df : DF, _best_numeric df = bestNumericSpec moneyWords df) ∧
    _best_numeric dfQ = some "amount" := by
  refine ⟨?_, ?_, by decide⟩
  · intro df
    unfold _best_numeric
    cases h : _all_numeric df with
    | nil => simp [h, pyMaxBy]
    | cons x t =>
      cases h2 : (x :: t).find? (fun c => moneySearch c) with
      | none => simp [h, h2, pyMaxBy]
      | some c => simp [h, h2]
  · intro df
    unfold _best_numeric bestNumericSpec moneySearch
    cases h : _all_numeric df with
    | nil => simp [h, pyMaxBy]
    | cons x t => simp [h]

/-! ## C4: column coercion -/

unseal Rat.add Rat.mul Rat.inv Rat.sub Rat.ofScientific in
/-- C4 (counterexample): on a 20-entry text column with 1 parseable value,
10 nulls and 9 junk strings, 10% of the NON-NULL values parse, yet the code
leaves the column unchanged (its threshold is over all entries: 5%).  And a
boolean column is returned unchanged by the code (pandas counts bool dtypes
as numeric), not converted to 0/1 integers as the claim states. -/
theorem coerce_numeric_claim_counterexample :
    coerce_numeric ex4 = ex4 ∧
    coerceNumericClaim ex4 ≠ ex4 ∧
    coerce_numeric exB = exB ∧
    coerceNumericClaim exB = PyCol.numeric [some 1] ∧
    exB ≠ PyCol.numeric [some 1] := by
  decide

unseal Rat.add Rat.mul Rat.inv Rat.sub Rat.ofScientific in
/-- C4 (amended): numeric, boolean and datetime columns are returned
unchanged; a text column is converted — unparseable values becoming null —
exactly when at least 10% of ALL its entries parse after currency stripping
(nulls count as non-parsing); at the boundary, a 10-entry column with exactly
one parsing entry (10%) is coerced and a 100-entry column with 9 parsing
entries (9%) is left as text. -/
theorem coerce_numeric_threshold :
    (∀ col : PyCol, coerce_numeric col = coerceNumericAmended col) ∧
    coerce_numeric ex10 = PyCol.numeric (some 1 :: List.replicate 9 none) ∧
    coerce_numeric ex100 = ex100 := by
  refine ⟨?_, by decide, by decide⟩
  intro col
  cases col <;> rfl

/-! ## C1: failure modes of `make_chart` -/

unseal Rat.add Rat.mul Rat.inv Rat.sub Rat.ofScientific in
/-- C1 (counterexample): with an unsupported kind ("scatter"), an existing
requested column, and fewer than 3 rows after cleaning, `make_chart` returns
the structured error and does NOT raise — the row-count check precedes the
kind dispatch, so "raises iff the kind is invalid or no column exists" is
wrong in the invalid-kind direction. -/
theorem make_chart_invalid_kind_returns_error_not_raise :
    (make_chart 0 df1 "scatter" ["a"] "").1 = ChartOut.err ∧
    ¬("scatter" = "bar" ∨ "scatter" = "line" ∨ "scatter" = "pie") ∧
    ["a"].filter (fun c => hasCol df1 c) ≠ [] ∧
    ((make_chart 0 df1 "scatter" ["a"] "").1).isExn = false := by
  decide

/-- C1 (amended): `make_chart` raises a `ValueError` iff no requested column
exists in the frame, or the kind is unsupported AND at least 3 rows remain
after cleaning; and whenever some requested column exists and fewer than
3 rows remain after cleaning, it returns the structured
insufficient-data error as a normal value. -/
theorem make_chart_failure_paths (figs : Nat) (df : DF) (kind : String)
    (columns : List String) (prompt : String) :
    (((make_chart figs df kind columns prompt).1).isExn = true ↔
      (columns.filter (fun c => hasCol df c) = [] ∨
        (¬(kind = "bar" ∨ kind = "line" ∨ kind = "pie") ∧
          3 ≤ rowCount (_clean_chart_data df
            (columns.filter (fun c => hasCol df c)))))) ∧
    (columns.filter (fun c => hasCol df c) ≠ [] →
      rowCount (_clean_chart_data df (columns.filter (fun c => hasCol df c))) < 3 →
      (make_chart figs df kind columns prompt).1 = ChartOut.err) := by
  unfold make_chart
  by_cases h1 : (columns.filter (fun c => hasCol df c)).isEmpty
  · have h1e : columns.filter (fun c => hasCol df c) = [] := by
      simpa using h1
    simp [h1, h1e, ChartOut.isExn]
  · have h1e : columns.filter (fun c => hasCol df c) ≠ [] := by
      simpa using h1
    by_cases h2 : rowCount (_clean_chart_data df
        (columns.filter (fun c => hasCol df c))) < 3
    · have h2n : ¬ (3 ≤ rowCount (_clean_chart_data df
          (columns.filter (fun c => hasCol df c)))) := by omega
      simp [h1, h2, h2n, h1e, ChartOut.isExn]
    · have h2y : 3 ≤ rowCount (_clean_chart_data df
          (columns.filter (fun c => hasCol df c))) := by omega
      by_cases h3 : kind = "bar" ∨ kind = "line"
      · refine ⟨?_, fun _ hlt => absurd hlt h2⟩
        rcases h3 with h5 | h5 <;> simp [h1, h2, h5, h1e, ChartOut.isExn]
      · by_cases h4 : kind = "pie"
        · refine ⟨?_, fun _ hlt => absurd hlt h2⟩
          simp [h1, h2, h4, h1e, pieBranch_not_exn]
        · refine ⟨?_, fun _ hlt => absurd hlt h2⟩
          have hb : ¬ (kind = "bar") := fun h => h3 (Or.inl h)
          have hl : ¬ (kind = "line") := fun h => h3 (Or.inr h)
          simp [h1, h2, h2y, hb, hl, h4, h1e, ChartOut.isExn]

unseal Rat.add Rat.mul Rat.inv Rat.sub Rat.ofScientific in
/-- Witness for the amended C1: on a 1-row frame with an existing column and
an unsupported kind, both hypotheses hold and the structured error is
returned. -/
theorem make_chart_failure_paths_witness :
    (["a"].filter (fun c => hasCol df1 c) ≠ [] ∧
      rowCount (_clean_chart_data df1 (["a"].filter (fun c => hasCol df1 c))) < 3) ∧
    (make_chart 0 df1 "scatter" ["a"] "").1 = ChartOut.err :=
  ⟨⟨by decide, by decide⟩,
    (make_chart_failure_paths 0 df1 "scatter" ["a"] "").2 (by decide) (by decide)⟩

/-! ## Arithmetic lemmas: percentile monotonicity, clamp and rounding bounds -/

theorem getD_sorted_le {s : List ℚ} (hs : List.Sorted (· ≤ ·) s) {i j : Nat}
    (hij : i ≤ j) (hj : j < s.length) (d1 d2 : ℚ) :
    s.getD i d1 ≤ s.getD j d2 := by
  have hi : i < s.length := Nat.lt_of_le_of_lt hij hj
  rw [List.getD_eq_getElem s d1 hi, List.getD_eq_getElem s d2 hj]
  rcases Nat.eq_or_lt_of_le hij with rfl | hlt
  · exact le_refl _
  · exact (List.pairwise_iff_getElem.mp hs) i j hi hj hlt

theorem interpAt_base {s : List ℚ} (hs : List.Sorted (· ≤ ·) s)
    {i1 i2 : Nat} {p1 p2 : ℚ}
    (hfr1a : (i1 : ℚ) ≤ p1) (hfr1b : p1 < (i1 : ℚ) + 1)
    (hfr2a : (i2 : ℚ) ≤ p2) (h12 : p1 ≤ p2)
    (hi2n : i2 < s.length) (hi12 : i1 ≤ i2) :
    s.getD i1 0 + (p1 - (i1 : ℚ)) * (s.getD (i1 + 1) (s.getD i1 0) - s.getD i1 0) ≤
      s.getD i2 0 + (p2 - (i2 : ℚ)) *
        (s.getD (i2 + 1) (s.getD i2 0) - s.getD i2 0) := by
  have hx01 : s.getD i1 0 ≤ s.getD (i1 + 1) (s.getD i1 0) := by
    by_cases hr : i1 + 1 < s.length
    · exact getD_sorted_le hs (Nat.le_succ i1) hr 0 (s.getD i1 0)
    · rw [List.getD_eq_default s (s.getD i1 0) (by omega)]
  have hy01 : s.getD i2 0 ≤ s.getD (i2 + 1) (s.getD i2 0) := by
    by_cases hr : i2 + 1 < s.length
    · exact getD_sorted_le hs (Nat.le_succ i2) hr 0 (s.getD i2 0)
    · rw [List.getD_eq_default s (s.getD i2 0) (by omega)]
  rcases Nat.lt_or_ge i1 i2 with hlt | hge
  · have up1 : s.getD i1 0 + (p1 - (i1 : ℚ)) *
        (s.getD (i1 + 1) (s.getD i1 0) - s.getD i1 0) ≤
        s.getD (i1 + 1) (s.getD i1 0) := by
      have hm : (p1 - (i1 : ℚ)) *
          (s.getD (i1 + 1) (s.getD i1 0) - s.getD i1 0) ≤
          s.getD (i1 + 1) (s.getD i1 0) - s.getD i1 0 :=
        mul_le_of_le_one_left (by linarith) (by linarith)
      linarith
    have mid : s.getD (i1 + 1) (s.getD i1 0) ≤ s.getD i2 0 :=
      getD_sorted_le hs (by omega) hi2n (s.getD i1 0) 0
    have low2 : s.getD i2 0 ≤ s.getD i2 0 + (p2 - (i2 : ℚ)) *
        (s.getD (i2 + 1) (s.getD i2 0) - s.getD i2 0) := by
      have hm : 0 ≤ (p2 - (i2 : ℚ)) *
          (s.getD (i2 + 1) (s.getD i2 0) - s.getD i2 0) :=
        mul_nonneg (by linarith) (by linarith)
      linarith
    linarith
  · have heq : i2 = i1 := Nat.le_antisymm (by omega) (by omega)
    subst heq
    have hm := mul_le_mul_of_nonneg_right
      (sub_le_sub_right h12 ((i2 : ℚ)))
      (by linarith : (0 : ℚ) ≤ s.getD (i2 + 1) (s.getD i2 0) - s.getD i2 0)
    linarith

theorem interpAt_mono {s : List ℚ} (hs : List.Sorted (· ≤ ·) s) {p1 p2 : ℚ}
    (h0 : 0 ≤ p1) (h12 : p1 ≤ p2) (h2 : p2 ≤ (s.length : ℚ) - 1) :
    interpAt s p1 ≤ interpAt s p2 := by
  have hp20 : 0 ≤ p2 := le_trans h0 h12
  have hf10 : 0 ≤ Int.floor p1 := Int.floor_nonneg.mpr h0
  have hf20 : 0 ≤ Int.floor p2 := Int.floor_nonneg.mpr hp20
  have qc1 : (((Int.floor p1).toNat : ℕ) : ℚ) = ((Int.floor p1 : ℤ) : ℚ) := by
    exact_mod_cast congrArg (fun z : ℤ => (z : ℚ)) (Int.toNat_of_nonneg hf10)
  have qc2 : (((Int.floor p2).toNat : ℕ) : ℚ) = ((Int.floor p2 : ℤ) : ℚ) := by
    exact_mod_cast congrArg (fun z : ℤ => (z : ℚ)) (Int.toNat_of_nonneg hf20)
  have hfr1a : (((Int.floor p1).toNat : ℕ) : ℚ) ≤ p1 := by
    rw [qc1]; exact Int.floor_le p1
  have hfr1b : p1 < (((Int.floor p1).toNat : ℕ) : ℚ) + 1 := by
    rw [qc1]; exact Int.lt_floor_add_one p1
  have hfr2a : (((Int.floor p2).toNat : ℕ) : ℚ) ≤ p2 := by
    rw [qc2]; exact Int.floor_le p2
  have hi2n : (Int.floor p2).toNat < s.length := by
    have h3 : (((Int.floor p2).toNat : ℕ) : ℚ) ≤ (s.length : ℚ) - 1 :=
      le_trans hfr2a h2
    have h4 : (((Int.floor p2).toNat : ℕ) : ℚ) + 1 ≤ (s.length : ℚ) := by linarith
    have h5 : (Int.floor p2).toNat + 1 ≤ s.length := by exact_mod_cast h4
    omega
  have hi12 : (Int.floor p1).toNat ≤ (Int.floor p2).toNat :=
    Int.toNat_le_toNat (Int.floor_mono h12)
  unfold interpAt
  exact interpAt_base hs hfr1a hfr1b hfr2a h12 hi2n hi12

/-- The 1st percentile never exceeds the 99th. -/
theorem pQuantile_le (xs : List ℚ) :
    pQuantile xs (1 / 100) ≤ pQuantile xs (99 / 100) := by
  cases xs with
  | nil => exact le_refl _
  | cons a t =>
    unfold pQuantile
    have hlen : (List.insertionSort (· ≤ ·) (a :: t)).length = (a :: t).length :=
      List.length_insertionSort _ _
    have hone : (1 : ℚ) ≤ ((a :: t).length : ℚ) := by
      have : 1 ≤ (a :: t).length := by simp
      exact_mod_cast this
    have hsub : (0 : ℚ) ≤ ((a :: t).length : ℚ) - 1 := by linarith
    apply interpAt_mono (List.sorted_insertionSort _ _)
    · exact mul_nonneg (by norm_num) hsub
    · exact mul_le_mul_of_nonneg_right (by norm_num) hsub
    · rw [hlen]
      exact mul_le_of_le_one_left hsub (by norm_num)

theorem halfEven_sub_le (y : ℚ) : |((halfEven y : ℤ) : ℚ) - y| ≤ 1 / 2 := by
  have h1 : ((Int.floor y : ℤ) : ℚ) ≤ y := Int.floor_le y
  have h2 : y < ((Int.floor y : ℤ) : ℚ) + 1 := Int.lt_floor_add_one y
  unfold halfEven
  by_cases hr1 : y - ((Int.floor y : ℤ) : ℚ) < 1 / 2
  · rw [if_pos hr1, abs_le]
    constructor <;> linarith
  · rw [if_neg hr1]
    by_cases hr2 : 1 / 2 < y - ((Int.floor y : ℤ) : ℚ)
    · rw [if_pos hr2, abs_le]
      push_cast
      constructor <;> linarith
    · rw [if_neg hr2]
      by_cases he : Int.floor y % 2 = 0
      · rw [if_pos he, abs_le]
        constructor <;> linarith
      · rw [if_neg he, abs_le]
        push_cast
        constructor <;> linarith

theorem round2_err (q : ℚ) : |round2 q - q| ≤ 1 / 200 := by
  have h := halfEven_sub_le (100 * q)
  rw [abs_le] at h ⊢
  unfold round2
  constructor <;> [linarith [h.1]; linarith [h.2]]

theorem npClip_mem {lo hi : ℚ} (h : lo ≤ hi) (v : ℚ) :
    lo ≤ npClip lo hi v ∧ npClip lo hi v ≤ hi := by
  unfold npClip
  exact ⟨le_min h (le_max_left lo v), min_le_left _ _⟩

theorem specClamp_eq_npClip {lo hi : ℚ} (h : lo ≤ hi) (v : ℚ) :
    specClamp lo hi v = npClip lo hi v := by
  unfold specClamp npClip
  by_cases h1 : v < lo
  · rw [if_pos h1, max_eq_left (le_of_lt h1), min_eq_right h]
  · rw [if_neg h1, max_eq_right (le_of_not_lt h1)]
    by_cases h2 : hi < v
    · rw [if_pos h2, min_eq_left (le_of_lt h2)]
    · rw [if_neg h2, min_eq_right (le_of_not_lt h2)]

/-! ## Structural lemmas about the frame operations -/

theorem findCol_updateCol (df : DF) (c c2 : String) (cells : List Cell) :
    findCol (updateCol df c cells) c2 =
      if c2 = c then (findCol df c).map (fun col => { col with cells := cells })
      else findCol df c2 := by
  induction df with
  | nil => by_cases h : c2 = c <;> simp [updateCol, findCol, h]
  | cons col rest ih =>
    unfold updateCol
    by_cases h1 : col.name = c
    · rw [if_pos h1]
      by_cases h2 : c2 = c
      · subst h2
        simp [findCol, h1]
      · have hne : ¬ col.name = c2 := fun hh => h2 (hh.symm.trans h1)
        simp [findCol, hne, h2]
    · rw [if_neg h1]
      by_cases h3 : col.name = c2
      · have h2 : ¬ c2 = c := fun hh => h1 (h3.trans hh)
        simp [findCol, h3, h2]
      · simp only [findCol, if_neg h1, if_neg h3]
        exact ih

theorem findCol_applyMask (df : DF) (m : List Bool) (c : String) :
    findCol (applyMask df m) c =
      (findCol df c).map (fun col => { col with cells := maskKeep m col.cells }) := by
  induction df with
  | nil => simp [applyMask, findCol]
  | cons col rest ih =>
    by_cases h : col.name = c
    · simp [applyMask, findCol, h]
    · simp only [applyMask, List.map_cons, findCol, h, if_neg h]
      exact ih

theorem isNumericCol_applyMask (df : DF) (m : List Bool) (c : String) :
    isNumericCol (applyMask df m) c = isNumericCol df c := by
  unfold isNumericCol
  rw [findCol_applyMask]
  cases findCol df c <;> simp

theorem hasCol_applyMask (df : DF) (m : List Bool) (c : String) :
    hasCol (applyMask df m) c = hasCol df c := by
  unfold hasCol
  rw [findCol_applyMask]
  cases findCol df c <;> simp

theorem isNumericCol_updateCol (df : DF) (c c2 : String) (cells : List Cell) :
    isNumericCol (updateCol df c cells) c2 = isNumericCol df c2 := by
  unfold isNumericCol
  rw [findCol_updateCol]
  by_cases h : c2 = c
  · subst h
    cases findCol df c2 <;> simp
  · rw [if_neg h]

theorem isNumericCol_cleanStep (df : DF) (c c2 : String) :
    isNumericCol (cleanStep df c) c2 = isNumericCol df c2 := by
  unfold cleanStep
  cases hf : findCol df c with
  | none => rfl
  | some col =>
    dsimp only
    by_cases hb : col.isNum
    · rw [if_pos hb, isNumericCol_applyMask, isNumericCol_updateCol]
    · rw [if_neg hb]

theorem isNumericCol_foldl (l : List String) :
    ∀ (init : DF) (c2 : String),
      isNumericCol (List.foldl cleanStep init l) c2 = isNumericCol init c2 := by
  induction l with
  | nil => intro init c2; rfl
  | cons a t ih =>
    intro init c2
    rw [List.foldl_cons, ih, isNumericCol_cleanStep]

theorem isNumericCol_clean (df : DF) (cols : List String) (c2 : String) :
    isNumericCol (_clean_chart_data df cols) c2 = isNumericCol df c2 := by
  unfold _clean_chart_data dropnaSubset
  rw [isNumericCol_foldl, isNumericCol_applyMask]

/-! ## Membership lemmas for the row masks -/

theorem mem_maskKeep {mask : List Bool} {l : List Cell} {x : Cell}
    (h : x ∈ maskKeep mask l) : x ∈ l := by
  unfold maskKeep at h
  rcases List.mem_map.mp h with ⟨p, hp, rfl⟩
  exact (List.of_mem_zip (List.mem_of_mem_filter hp)).1

theorem mem_maskKeep_map_pred (p : Cell → Bool) :
    ∀ (l : List Cell) {x : Cell}, x ∈ maskKeep (l.map p) l → p x = true := by
  intro l
  induction l with
  | nil => intro x h; simp [maskKeep] at h
  | cons a t ih =>
    intro x h
    unfold maskKeep at h
    rw [List.map_cons, List.zip_cons_cons] at h
    by_cases hpa : p a
    · rw [List.filter_cons_of_pos (by simpa using hpa)] at h
      rcases List.mem_map.mp h with ⟨pr, hpr, rfl⟩
      rcases List.mem_cons.mp hpr with rfl | hpr2
      · exact hpa
      · exact ih (List.mem_map.mpr ⟨pr, hpr2, rfl⟩)
    · rw [List.filter_cons_of_neg (by simpa using hpa)] at h
      exact ih h

theorem cellNum_eq_some {cell : Cell} {q : ℚ} (h : cellNum cell = some q) :
    cell = Cell.num q := by
  cases cell with
  | num q0 => simp [cellNum] at h; rw [h]
  | null => simp [cellNum] at h
  | str s => simp [cellNum] at h

/-! ## The cells of a column across a cleaning pass -/

theorem colCells_cleanStep_self {df : DF} {c : String} {col : Column}
    (hf : findCol df c = some col) (hb : col.isNum = true) :
    colCells (cleanStep df c) c =
      maskKeep (nonnegMask (cleanCells col.cells)) (cleanCells col.cells) := by
  unfold cleanStep
  rw [hf]
  dsimp only
  rw [if_pos hb]
  unfold colCells
  rw [findCol_applyMask, findCol_updateCol, if_pos rfl, hf]
  simp

theorem colCells_cleanStep_subset {df : DF} {c c2 : String} (hne : c2 ≠ c)
    {x : Cell} (h : x ∈ colCells (cleanStep df c) c2) : x ∈ colCells df c2 := by
  unfold cleanStep at h
  cases hf : findCol df c with
  | none => rw [hf] at h; exact h
  | some col =>
    rw [hf] at h
    dsimp only at h
    by_cases hb : col.isNum
    · rw [if_pos hb] at h
      unfold colCells at h ⊢
      rw [findCol_applyMask, findCol_updateCol, if_neg hne] at h
      cases hf2 : findCol df c2 with
      | none =>
        rw [hf2] at h
        exact absurd h (List.not_mem_nil x)
      | some col2 =>
        rw [hf2] at h
        exact mem_maskKeep h
    · rw [if_neg hb] at h
      exact h

theorem cleanStep_self_nonneg {df : DF} {c : String}
    (hn : isNumericCol df c = true) {q : ℚ}
    (h : Cell.num q ∈ colCells (cleanStep df c) c) : 0 ≤ q := by
  unfold isNumericCol at hn
  cases hf : findCol df c with
  | none => rw [hf] at hn; cases hn
  | some col =>
    rw [hf] at hn
    rw [colCells_cleanStep_self hf hn] at h
    have hp := mem_maskKeep_map_pred _ _ h
    simpa [cellNum] using hp

theorem cleanStep_preserve_nonneg {df : DF} {c c2 : String}
    (hn : isNumericCol df c2 = true)
    (hprev : ∀ q : ℚ, Cell.num q ∈ colCells df c2 → 0 ≤ q) :
    ∀ q : ℚ, Cell.num q ∈ colCells (cleanStep df c) c2 → 0 ≤ q := by
  intro q h
  by_cases he : c2 = c
  · subst he
    exact cleanStep_self_nonneg hn h
  · exact hprev q (colCells_cleanStep_subset he h)

theorem foldl_clean_nonneg {c : String} :
    ∀ (l : List String) (df : DF), isNumericCol df c = true →
      (∀ q : ℚ, Cell.num q ∈ colCells df c → 0 ≤ q) →
      ∀ q : ℚ, Cell.num q ∈ colCells (List.foldl cleanStep df l) c → 0 ≤ q := by
  intro l
  induction l with
  | nil => intro df _ hprev q h; exact hprev q h
  | cons a t ih =>
    intro df hn hprev q h
    rw [List.foldl_cons] at h
    exact ih (cleanStep df a) (by rw [isNumericCol_cleanStep]; exact hn)
      (cleanStep_preserve_nonneg hn hprev) q h

/-- After the full cleaning pass, every value of a numeric target column is
non-negative (its own pass filtered the negatives out, later passes only
remove rows). -/
theorem clean_nonneg {df : DF} {cols : List String} {c : String}
    (hc : c ∈ cols) (hn : isNumericCol df c = true) :
    ∀ q : ℚ, Cell.num q ∈ colCells (_clean_chart_data df cols) c → 0 ≤ q := by
  obtain ⟨l1, l2, rfl⟩ := List.append_of_mem hc
  unfold _clean_chart_data
  rw [List.foldl_append, List.foldl_cons]
  have hnum1 : isNumericCol (List.foldl cleanStep
      (dropnaSubset df (l1 ++ c :: l2)) l1) c = true := by
    rw [isNumericCol_foldl]
    unfold dropnaSubset
    rw [isNumericCol_applyMask]
    exact hn
  exact foldl_clean_nonneg l2 _
    (by rw [isNumericCol_cleanStep]; exact hnum1)
    (fun q h => cleanStep_self_nonneg hnum1 h)

/-! ## Membership lemmas for `_split_cols` and the pie series -/

theorem mem_split_nums {df : DF} :
    ∀ {cols : List String} {c : String}, c ∈ cols →
      isNumericCol df c = true → c ∈ (_split_cols df cols).2 := by
  intro cols
  induction cols with
  | nil => intro c hc _; cases hc
  | cons a t ih =>
    intro c hc hn
    unfold _split_cols
    rcases List.mem_cons.mp hc with rfl | hct
    · unfold isNumericCol at hn
      cases hf : findCol df c with
      | none =>
        rw [hf] at hn
        simp at hn
      | some col =>
        rw [hf] at hn
        dsimp only at hn
        dsimp only
        rw [if_pos hn]
        exact List.mem_cons_self _ _
    · have hmem := ih hct hn
      cases hf : findCol df a with
      | none => exact hmem
      | some col =>
        dsimp only
        by_cases hb : col.isNum
        · rw [if_pos hb]
          exact List.mem_cons_of_mem _ hmem
        · rw [if_neg hb]
          exact hmem

theorem split_nums_sub {df : DF} :
    ∀ {cols : List String} {c : String}, c ∈ (_split_cols df cols).2 →
      c ∈ cols ∧ isNumericCol df c = true := by
  intro cols
  induction cols with
  | nil => intro c hc; cases hc
  | cons a t ih =>
    intro c hc
    unfold _split_cols at hc
    cases hf : findCol df a with
    | none =>
      rw [hf] at hc
      rcases ih hc with ⟨h1, h2⟩
      exact ⟨List.mem_cons_of_mem _ h1, h2⟩
    | some col =>
      rw [hf] at hc
      dsimp only at hc
      by_cases hb : col.isNum
      · rw [if_pos hb] at hc
        rcases List.mem_cons.mp hc with rfl | hct
        · refine ⟨List.mem_cons_self _ _, ?_⟩
          unfold isNumericCol
          rw [hf]
          exact hb
        · rcases ih hct with ⟨h1, h2⟩
          exact ⟨List.mem_cons_of_mem _ h1, h2⟩
      · rw [if_neg hb] at hc
        rcases ih hc with ⟨h1, h2⟩
        exact ⟨List.mem_cons_of_mem _ h1, h2⟩

theorem groupbySum_nonneg {keyCells valCells : List Cell}
    (h : ∀ q : ℚ, Cell.num q ∈ valCells → 0 ≤ q) :
    ∀ p ∈ groupbySum keyCells valCells, 0 ≤ p.2 := by
  intro p hp
  unfold groupbySum at hp
  rcases List.mem_map.mp hp with ⟨k, _, rfl⟩
  apply List.sum_nonneg
  intro x hx
  rcases List.mem_filterMap.mp hx with ⟨pr, hpr, hcn⟩
  have hmem := (List.of_mem_zip (List.mem_of_mem_filter hpr)).2
  rw [cellNum_eq_some hcn] at hmem
  exact h x hmem

theorem mem_insertDesc {x y : Cell × ℚ} :
    ∀ {l : List (Cell × ℚ)}, y ∈ insertDesc x l → y = x ∨ y ∈ l := by
  intro l
  induction l with
  | nil =>
    intro h
    rcases List.mem_cons.mp h with rfl | h2
    · exact Or.inl rfl
    · cases h2
  | cons a t ih =>
    intro h
    unfold insertDesc at h
    by_cases hc : a.2 < x.2
    · rw [if_pos hc] at h
      rcases List.mem_cons.mp h with rfl | h2
      · exact Or.inl rfl
      · exact Or.inr h2
    · rw [if_neg hc] at h
      rcases List.mem_cons.mp h with rfl | h2
      · exact Or.inr (List.mem_cons_self _ _)
      · rcases ih h2 with h3 | h3
        · exact Or.inl h3
        · exact Or.inr (List.mem_cons_of_mem _ h3)

theorem mem_sortDesc {y : Cell × ℚ} :
    ∀ {l : List (Cell × ℚ)}, y ∈ sortDesc l → y ∈ l := by
  intro l
  induction l with
  | nil => intro h; cases h
  | cons a t ih =>
    intro h
    unfold sortDesc at h
    rcases mem_insertDesc h with rfl | h2
    · exact List.mem_cons_self _ _
    · exact List.mem_cons_of_mem _ (ih h2)

theorem value_counts_nonneg (cells : List Cell) :
    ∀ p ∈ value_counts cells, 0 ≤ p.2 := by
  intro p hp
  unfold value_counts at hp
  have hp2 := mem_sortDesc hp
  rcases List.mem_map.mp hp2 with ⟨k, _, rfl⟩
  exact_mod_cast Nat.cast_nonneg _

/-- With a spend hint, a series of non-negative values is filtered to the
empty series by the sign handling. -/
theorem pieTransform_spend_empty {prompt : String} {series : List (Cell × ℚ)}
    (hs : promptHasSpend prompt = true)
    (h : ∀ p ∈ series, 0 ≤ p.2) : pieTransform prompt series = [] := by
  unfold pieTransform
  have h1 : series.filter (fun p => decide (p.2 < 0)) = [] := by
    rw [List.filter_eq_nil_iff]
    intro p hp
    simpa using not_lt.mpr (h p hp)
  simp [hs, h1]

theorem pieRender_empty_err {prompt : String} {series : List (Cell × ℚ)}
    {opened : Nat} (h : pieTransform prompt series = []) :
    pieRender prompt series opened = (ChartOut.err, opened) := by
  unfold pieRender
  rw [h]
  simp

/-! ## C10: pie + spend hint always yields the insufficient-data error -/

/-- C10: for every table, requested column list containing at least one
numeric column of the table, and prompt containing a spend/expense/outflow
hint, the pie branch of `make_chart` returns the structured
insufficient-data error: the cleaner has dropped all rows with a negative
value in any requested numeric column, so the plotted series (group sums or
value counts) is entirely non-negative and the keep-only-negatives filter
empties it. -/
theorem pie_spend_hint_always_insufficient (figs : Nat) (df : DF)
    (columns : List String) (prompt : String)
    (hnum : ∃ c, c ∈ columns ∧ isNumericCol df c = true)
    (hsp : promptHasSpend prompt = true) :
    (make_chart figs df "pie" columns prompt).1 = ChartOut.err := by
  obtain ⟨c, hc, hn⟩ := hnum
  have hhas : hasCol df c = true := by
    unfold isNumericCol at hn
    unfold hasCol
    cases hf : findCol df c with
    | none => rw [hf] at hn; cases hn
    | some col => simp
  have hcmem : c ∈ columns.filter (fun c => hasCol df c) :=
    List.mem_filter.mpr ⟨hc, hhas⟩
  have hene : ¬ (columns.filter (fun c => hasCol df c)).isEmpty = true := by
    simpa using List.ne_nil_of_mem hcmem
  unfold make_chart
  by_cases h2 : rowCount (_clean_chart_data df
      (columns.filter (fun c => hasCol df c))) < 3
  · simp [hene, h2]
  · simp only [hene, Bool.false_eq_true, if_false, h2, if_true]
    simp only [String.reduceEq, false_or, or_self, Bool.false_eq_true,
      if_false, if_true, reduceIte]
    -- the pie branch itself
    have hnclean : isNumericCol (_clean_chart_data df
        (columns.filter (fun c => hasCol df c)))
        c = true := by
      rw [isNumericCol_clean]; exact hn
    have hnums : c ∈ (_split_cols (_clean_chart_data df
        (columns.filter (fun c => hasCol df c)))
        (columns.filter (fun c => hasCol df c))).2 :=
      mem_split_nums hcmem hnclean
    have hvalnonneg : ∀ (n0 : String),
        n0 ∈ (_split_cols (_clean_chart_data df
          (columns.filter (fun c => hasCol df c)))
          (columns.filter (fun c => hasCol df c))).2 →
        ∀ q : ℚ, Cell.num q ∈ colCells (_clean_chart_data df
          (columns.filter (fun c => hasCol df c))) n0 → 0 ≤ q := by
      intro n0 hmem q hq
      rcases split_nums_sub hmem with ⟨h1, h2n⟩
      rw [isNumericCol_clean] at h2n
      exact clean_nonneg h1 h2n q hq
    have hpn : pieNums (_clean_chart_data df
        (columns.filter (fun c => hasCol df c)))
        (columns.filter (fun c => hasCol df c)) =
        (_split_cols (_clean_chart_data df
          (columns.filter (fun c => hasCol df c)))
          (columns.filter (fun c => hasCol df c))).2 := by
      unfold pieNums
      rw [if_neg]
      rintro ⟨-, hx⟩
      rw [List.isEmpty_iff] at hx
      rw [hx] at hnums
      cases hnums
    unfold pieBranch
    rw [hpn]
    cases hcat : (_split_cols (_clean_chart_data df
        (columns.filter (fun c => hasCol df c)))
        (columns.filter (fun c => hasCol df c))).1 with
    | nil =>
      cases hnl : (_split_cols (_clean_chart_data df
          (columns.filter (fun c => hasCol df c)))
          (columns.filter (fun c => hasCol df c))).2 with
      | nil =>
        rw [hnl] at hnums
      | cons n0 nr =>
        dsimp only
        rw [pieRender_empty_err (pieTransform_spend_empty hsp
          (value_counts_nonneg _))]
    | cons c0 cr =>
      cases hnl : (_split_cols (_clean_chart_data df
          (columns.filter (fun c => hasCol df c)))
          (columns.filter (fun c => hasCol df c))).2 with
      | nil =>
        rw [hnl] at hnums
        all_goals simp at hnums
      | cons n0 nr =>
        dsimp only
        have hmem0 : n0 ∈ (_split_cols (_clean_chart_data df
            (columns.filter (fun c => hasCol df c)))
            (columns.filter (fun c => hasCol df c))).2 := by
          rw [hnl]
          exact List.mem_cons_self _ _
        rw [pieRender_empty_err (pieTransform_spend_empty hsp
          (groupbySum_nonneg (hvalnonneg n0 hmem0)))]

unseal Rat.add Rat.mul Rat.inv Rat.sub Rat.ofScientific in
/-- Witness for C10: the "amount" column of `dfW` is numeric and requested,
the prompt "my spending" contains the spend hint, and the call returns the
structured error. -/
theorem pie_spend_hint_always_insufficient_witness :
    ((("amount" : String) ∈ (["amount"] : List String) ∧
        isNumericCol dfW "amount" = true) ∧
      promptHasSpend "my spending" = true) ∧
    (make_chart 0 dfW "pie" ["amount"] "my spending").1 = ChartOut.err :=
  ⟨⟨⟨by decide, by decide⟩, by decide⟩,
    pie_spend_hint_always_insufficient 0 dfW ["amount"] "my spending"
      ⟨"amount", by decide, by decide⟩ (by decide)⟩

/-! ## Row-count lemmas -/

theorem length_maskKeep_le (mask : List Bool) (cells : List Cell) :
    (maskKeep mask cells).length ≤ cells.length := by
  unfold maskKeep
  rw [List.length_map]
  refine le_trans (List.length_filter_le _ _) ?_
  rw [List.length_zip]
  exact inf_le_left

theorem rowCount_applyMask_le (df : DF) (m : List Bool) :
    rowCount (applyMask df m) ≤ rowCount df := by
  cases df with
  | nil => exact le_refl _
  | cons col rest => exact length_maskKeep_le m col.cells

theorem rowCount_updateCol (df : DF) (c : String) (cells2 : List Cell)
    (h : ∀ col : Column, findCol df c = some col →
      cells2.length = col.cells.length) :
    rowCount (updateCol df c cells2) = rowCount df := by
  cases df with
  | nil => rfl
  | cons col rest =>
    by_cases hn : col.name = c
    · have hlen := h col (by unfold findCol; rw [if_pos hn])
      unfold updateCol rowCount
      rw [if_pos hn]
      exact hlen
    · unfold updateCol rowCount
      rw [if_neg hn]

theorem rowCount_cleanStep_le (df : DF) (c : String) :
    rowCount (cleanStep df c) ≤ rowCount df := by
  unfold cleanStep
  cases hf : findCol df c with
  | none => exact le_refl _
  | some col =>
    dsimp only
    by_cases hb : col.isNum
    · rw [if_pos hb]
      refine le_trans (rowCount_applyMask_le _ _) (le_of_eq ?_)
      apply rowCount_updateCol
      intro col2 hcol2
      rw [hf] at hcol2
      injection hcol2 with hcol2
      subst hcol2
      unfold cleanCells
      exact List.length_map _ _
    · rw [if_neg hb]

theorem rowCount_foldl_le (l : List String) :
    ∀ init : DF, rowCount (List.foldl cleanStep init l) ≤ rowCount init := by
  induction l with
  | nil => intro init; exact le_refl _
  | cons a t ih =>
    intro init
    rw [List.foldl_cons]
    exact le_trans (ih (cleanStep init a)) (rowCount_cleanStep_le init a)

theorem rowCount_clean_le (df : DF) (cols : List String) :
    rowCount (_clean_chart_data df cols) ≤ rowCount df :=
  le_trans (rowCount_foldl_le cols _) (rowCount_applyMask_le df _)

/-! ## Value bounds of a cleaned column -/

theorem round2_clip_bounds {lo hi : ℚ} (h : lo ≤ hi) (v : ℚ) :
    lo - 1 / 200 ≤ round2 (npClip lo hi v) ∧
      round2 (npClip lo hi v) ≤ hi + 1 / 200 := by
  have hm := npClip_mem h v
  have he := round2_err (npClip lo hi v)
  rw [abs_le] at he
  constructor <;> linarith [hm.1, hm.2, he.1, he.2]

theorem cleanStep_self_bounds {df : DF} {c : String}
    (hn : isNumericCol df c = true) {q : ℚ}
    (h : Cell.num q ∈ colCells (cleanStep df c) c) :
    pQuantile (numVals df c) (1 / 100) - 1 / 200 ≤ q ∧
      q ≤ pQuantile (numVals df c) (99 / 100) + 1 / 200 := by
  unfold isNumericCol at hn
  cases hf : findCol df c with
  | none => rw [hf] at hn; cases hn
  | some col =>
    rw [hf] at hn
    rw [colCells_cleanStep_self hf hn] at h
    have h2 := mem_maskKeep h
    unfold cleanCells at h2
    rcases List.mem_map.mp h2 with ⟨cell0, hc0, heq⟩
    have hnv : numVals df c = col.cells.filterMap cellNum := by
      unfold numVals colCells
      rw [hf]
    cases hcn : cellNum cell0 with
    | none =>
      rw [hcn] at heq
      dsimp only at heq
      rw [heq] at hcn
      simp [cellNum] at hcn
    | some v =>
      rw [hcn] at heq
      dsimp only at heq
      injection heq with heq
      rw [hnv, ← heq]
      exact round2_clip_bounds (pQuantile_le _) v

theorem foldl_colCells_subset {c : String} :
    ∀ (l : List String) (df : DF), c ∉ l →
      ∀ x : Cell, x ∈ colCells (List.foldl cleanStep df l) c →
        x ∈ colCells df c := by
  intro l
  induction l with
  | nil => intro df _ x h; exact h
  | cons a t ih =>
    intro df hnotin x h
    rw [List.foldl_cons] at h
    have hca : c ≠ a := fun he => hnotin (he ▸ List.mem_cons_self a t)
    have h2 := ih (cleanStep df a)
      (fun hm => hnotin (List.mem_cons_of_mem _ hm)) x h
    exact colCells_cleanStep_subset hca h2

/-! ## C7: cleaner row-count monotonicity and value bounds -/

unseal Rat.add Rat.mul Rat.inv Rat.sub Rat.ofScientific in
/-- C7 (counterexample): for the column `[0, 0.4]`, the 99th percentile of
the pre-clamp values is 0.396, yet the cleaned output contains 0.40 — the
2-decimal rounding applied after clipping pushes values outside the
percentile range, so "all output values lie within [p1, p99]" is false. -/
theorem cleaner_range_counterexample :
    Cell.num (2 / 5) ∈ colCells (_clean_chart_data df7 ["a"]) "a" ∧
    pQuantile (numVals (preClean df7 ["a"] []) "a") (99 / 100) < 2 / 5 := by
  decide

/-- C7 (amended): the cleaner never increases the row count, and every value
of a numeric target column in the output lies within the 1st-99th percentile
range of that column's pre-clamp values WIDENED BY 0.005 on each side (the
slack introduced by the 2-decimal rounding that follows the clamp).  The
percentiles are those computed when the column is processed (its last
occurrence in the target list). -/
theorem cleaner_monotone_bounds (df : DF) (cols : List String)
    (hin : ∀ c ∈ cols, hasCol df c = true) :
    rowCount (_clean_chart_data df cols) ≤ rowCount df ∧
    ∀ (l1 l2 : List String) (c : String),
      cols = l1 ++ c :: l2 → c ∉ l2 → isNumericCol df c = true →
      ∀ q : ℚ, Cell.num q ∈ colCells (_clean_chart_data df cols) c →
        pQuantile (numVals (preClean df cols l1) c) (1 / 100) - 1 / 200 ≤ q ∧
        q ≤ pQuantile (numVals (preClean df cols l1) c) (99 / 100) + 1 / 200 := by
  refine ⟨rowCount_clean_le df cols, ?_⟩
  intro l1 l2 c hcols hnl2 hn q hq
  have hnpre : isNumericCol (preClean df cols l1) c = true := by
    unfold preClean dropnaSubset
    rw [isNumericCol_foldl, isNumericCol_applyMask]
    exact hn
  subst hcols
  unfold _clean_chart_data at hq
  rw [List.foldl_append, List.foldl_cons] at hq
  have hq2 := foldl_colCells_subset l2 _ hnl2 _ hq
  exact cleanStep_self_bounds hnpre hq2

unseal Rat.add Rat.mul Rat.inv Rat.sub Rat.ofScientific in
/-- Witness for the amended C7 at the concrete frame `df7`: both hypotheses
hold and both conclusions are obtained from the theorem, including the
widened bounds for the output value 0.4. -/
theorem cleaner_monotone_bounds_witness :
    ((∀ c ∈ (["a"] : List String), hasCol df7 c = true) ∧
      isNumericCol df7 "a" = true ∧
      Cell.num (2 / 5) ∈ colCells (_clean_chart_data df7 ["a"]) "a") ∧
    rowCount (_clean_chart_data df7 ["a"]) ≤ rowCount df7 ∧
    (pQuantile (numVals (preClean df7 ["a"] []) "a") (1 / 100) - 1 / 200 ≤ 2 / 5 ∧
      2 / 5 ≤ pQuantile (numVals (preClean df7 ["a"] []) "a") (99 / 100) + 1 / 200) :=
  ⟨⟨by decide, by decide, by decide⟩,
    (cleaner_monotone_bounds df7 ["a"] (by decide)).1,
    (cleaner_monotone_bounds df7 ["a"] (by decide)).2 [] [] "a" rfl
      (by decide) (by decide) (2 / 5) (by decide)⟩

/-! ## C5: equality with the spec-worded cleaner and the clamp-up survival -/

theorem cleanCells_eq_spec (cells : List Cell) :
    cleanCells cells = specCleanCells cells := by
  unfold cleanCells specCleanCells
  apply List.map_congr_left
  intro cell _
  cases hcn : cellNum cell with
  | none => simp only [hcn]
  | some v =>
    simp only [hcn]
    rw [specClamp_eq_npClip (pQuantile_le (cells.filterMap cellNum)) v]

theorem cleanStep_eq_spec : cleanStep = cleanStepSpec := by
  funext df c
  unfold cleanStep cleanStepSpec
  cases hf : findCol df c with
  | none => rfl
  | some col =>
    dsimp only
    rw [cleanCells_eq_spec]

unseal Rat.add Rat.mul Rat.inv Rat.sub Rat.ofScientific in
/-- C5: the cleaner equals the spec-worded pipeline (dropna; then per
numeric target column: percentiles once over the currently-remaining rows,
clamp to the nearest bound, round to 2 decimals, and only then drop
negative rows), and on the column `[-1, 100, 200]` the negative value is
clamped up to the 1st percentile 1.02 and survives the negative-row drop:
all 3 rows remain and 1.02 is in the output. -/
theorem clean_chart_data_spec_order :
    (∀ (df : DF) (cols : List String),
      _clean_chart_data df cols = cleanChartDataSpec df cols) ∧
    rowCount (_clean_chart_data df5 ["a"]) = 3 ∧
    Cell.num (51 / 50) ∈ colCells (_clean_chart_data df5 ["a"]) "a" ∧
    Cell.num (-1) ∈ colCells df5 "a" ∧ (-1 : ℚ) < 0 ∧
    pQuantile (numVals (preClean df5 ["a"] []) "a") (1 / 100) = 51 / 50 := by
  refine ⟨?_, by decide, by decide, by decide, by decide, by decide⟩
  intro df cols
  unfold _clean_chart_data cleanChartDataSpec
  rw [cleanStep_eq_spec]

end Arvin
